import Mathlib

/-!
Verification of the notification-polling saga (`src/src/app/redux/NotificationSaga.js`)
against its natural-language specification.

Shallow embedding conventions:
* A notification is a record of its `id`, `notify_type`, `created` and `updated`
  timestamps (modelled as `Nat`; the source holds ordered timestamp strings and
  compares them with the default ordering) and the `read`/`shown` flags.
* A redux action object is an `Action` value; each constructor corresponds to one
  action `type` string put by the saga, carrying the fields the source attaches.
* A remote API response is an `ApiResponse`: the source checks `payload.error`
  (an optional message) and otherwise treats the whole value as the payload, so
  the record carries an optional `error` and opaque `data`.
* Each saga is a pure function from its inputs (selected state, the remote call
  it performs, its action argument) to the remote calls it makes and the list of
  actions it `put`s, in order.  `select` results are passed in as arguments;
  remote calls are passed in as functions, mirroring `call(fn, args)`.
-/

namespace NotifSaga

structure Notification where
  id : String
  notify_type : String
  created : Nat
  updated : Nat
  read : Bool
  shown : Bool
deriving DecidableEq

/-- The `updates` object sent with `notification/SENT_UPDATES`: each of the three
queue descriptors in `watchPollData` carries one of `{read: true}`, `{read: false}`,
`{shown: true}`; absent fields are `none`. -/
structure Updates where
  read : Option Bool
  shown : Option Bool
deriving DecidableEq

/-- A remote API response: the source branches on `payload.error` and otherwise
forwards the entire response value as the payload of the emitted action. -/
structure ApiResponse where
  error : Option String
  data : String
deriving DecidableEq

/-- The redux actions `put` by this saga module, one constructor per action type. -/
inductive Action where
  | fetchSomeRequested (direction : String)
  | receiveAll (payload : ApiResponse)
  | receiveAllError (msg : String)
  | appendSome (payload : ApiResponse)
  | appendSomeError (msg : String)
  | sentUpdates (updates : Updates)
  | sentUpdatesError (msg : String)
deriving DecidableEq

/-- `POLL_WAIT_MS` (source line 11). -/
def POLL_WAIT_MS : Nat := 5000

/-- The comparison `Immutable.sortBy(n => n.updated)` sorts by: `updated` values
in ascending order. -/
def updLE (a b : Notification) : Prop := a.updated ≤ b.updated

instance : DecidableRel updLE := fun a b => Nat.decLe a.updated b.updated

instance : IsTotal Notification updLE := ⟨fun a b => Nat.le_total a.updated b.updated⟩

instance : IsTrans Notification updLE := ⟨fun _ _ _ h1 h2 => Nat.le_trans h1 h2⟩

/-- `getTimestamp(direction, filteredNotifs)` (source lines 40-44): `false`
(here `none`) on an empty collection; for direction `'before'` the `created`
field of the collection's last element; for any other direction the `updated`
field of the last element after a stable sort by `updated`. -/
def getTimestamp (direction : String) (filteredNotifs : List Notification) : Option Nat :=
  if filteredNotifs.length < 1 then none
  else if direction = "before" then
    filteredNotifs.getLast?.map Notification.created
  else
    (List.insertionSort updLE filteredNotifs).getLast?.map Notification.updated

/-- `pollNotifications` (source lines 53-66), as a function of whether the
`delay(POLL_WAIT_MS)` call resolves (`cancelled = false`) or is interrupted by
cancellation of the surrounding task (`cancelled = true`, the `catch` branch).
Result: the duration passed to `delay`, and the actions put. -/
def pollNotifications (cancelled : Bool) : Nat × List Action :=
  (POLL_WAIT_MS,
    if cancelled then [Action.appendSomeError "poll cancelled"]
    else [Action.fetchSomeRequested "after"])

/-- `processUpdateQueue({accessor, yoApiCall, sentUpdates})` (source lines
124-147).  `idsPending` is the snapshot the `select(accessor)` returns;
`yoApiCall` is the remote submission.  Result: the list of remote calls made
(each the id list submitted) and the actions put. -/
def processUpdateQueue (idsPending : List String) (sentUpdates : Updates)
    (yoApiCall : List String → ApiResponse) : List (List String) × List Action :=
  if idsPending.length > 0 then
    let payload := yoApiCall idsPending
    match payload.error with
    | some e => ([idsPending], [Action.sentUpdatesError e])
    | none => ([idsPending], [Action.sentUpdates sentUpdates, Action.appendSome payload])
  else ([], [])

/-- The `sentUpdates` field of the read-queue descriptor (source lines 83-85). -/
def readSentUpdates : Updates := ⟨some true, none⟩

/-- The `sentUpdates` field of the unread-queue descriptor (source lines 90-92). -/
def unreadSentUpdates : Updates := ⟨some false, none⟩

/-- The `sentUpdates` field of the shown-queue descriptor (source lines 97-99). -/
def shownSentUpdates : Updates := ⟨none, some true⟩

/-- `fetchAll` (source lines 154-169): fetch the complete set for the selected
username, then put `RECEIVE_ALL` on success or `RECEIVE_ALL_ERROR` on error. -/
def fetchAll (username : String) (api : String → ApiResponse) : List Action :=
  let payload := api username
  match payload.error with
  | some e => [Action.receiveAllError e]
  | none => [Action.receiveAll payload]

/-- The argument object of the `fetchSomeNotifications` call (source lines
197-201): the username, the `types` field, and the spread of the `filter`
object — at most one `direction ↦ timestamp` entry, as an association list. -/
structure FetchSomeRequest where
  username : String
  types : Option (List String)
  filter : List (String × Nat)
deriving DecidableEq

/-- The type filter applied to the known notifications (source line 187):
keep notifications whose `notify_type` occurs in `types`, or everything when
`types` is absent. -/
def filterByTypes (types : Option (List String)) (allNotifs : List Notification) :
    List Notification :=
  match types with
  | some ts => allNotifs.filter (fun n => ts.contains n.notify_type)
  | none => allNotifs

/-- `fetchSome({types, direction})` (source lines 180-214).  `allNotifs` is the
`getNotificationsById` selection; `api` is `fetchSomeNotifications`.  Result:
the request object passed to the remote call, and the actions put.  The source
defaults `direction` to `'after'` when absent; callers pass the default
explicitly here. -/
def fetchSome (username : String) (allNotifs : List Notification)
    (types : Option (List String)) (direction : String)
    (api : FetchSomeRequest → ApiResponse) : FetchSomeRequest × List Action :=
  let filteredNotifs := filterByTypes types allNotifs
  let timestamp := getTimestamp direction filteredNotifs
  let filter : List (String × Nat) :=
    match timestamp with
    | some t => [(direction, t)]
    | none => []
  let req : FetchSomeRequest := ⟨username, types, filter⟩
  (req,
    match (api req).error with
    | some e => [Action.appendSomeError e]
    | none => [Action.appendSome (api req)])

/-- `updateOne({id, updates})` (source lines 224-233): when `updates.read === true`,
call `markAsRead([id])` and put `APPEND_SOME` with the response, with no error
branch; otherwise do nothing. -/
def updateOne (id : String) (updates : Updates)
    (markAsRead : List String → ApiResponse) : List (List String) × List Action :=
  if updates.read = some true then
    ([[id]], [Action.appendSome (markAsRead [id])])
  else ([], [])

/-- `updateSome({ids, updates})` (source lines 235-244): as `updateOne` but for a
list of ids. -/
def updateSome (ids : List String) (updates : Updates)
    (markAsRead : List String → ApiResponse) : List (List String) × List Action :=
  if updates.read = some true then
    ([ids], [Action.appendSome (markAsRead ids)])
  else ([], [])

/-- The three pending queues as selected from the store. -/
structure Queues where
  idsReadPending : List String
  idsUnreadPending : List String
  idsShownPending : List String
deriving DecidableEq

/-- The effects the dispatch phase of one `watchPollData` iteration contributes
(source lines 79-102).  The source maps the array of three queue descriptors
through `processUpdateQueue`; since `processUpdateQueue` is a generator
function, each call merely constructs a suspended generator object, and the
resulting array is discarded — it is never yielded to the saga middleware, so
none of the three drain bodies ever executes: no `select`, no remote call and
no `put` from any of them, whatever the pending queues hold. -/
def dispatchPhase (_qs : Queues) : List (List String) × List Action := ([], [])

/-- The control states of the `watchPollData` loop (source lines 72-109): blocked
on `take([RECEIVE_ALL, APPEND_SOME])`, or blocked on the
`race([call(pollNotifications), take(LOGOUT)])`. -/
inductive SupState where
  | awaitingData
  | racing
deriving DecidableEq

/-- The external events that can resolve one of the blocking points of
`watchPollData`: arrival of a `notification/RECEIVE_ALL` or
`notification/APPEND_SOME` action, arrival of `user/LOGOUT`, or the poll delay
elapsing. -/
inductive Signal where
  | receiveAllSig
  | appendSomeSig
  | logoutSig
  | pollElapsedSig
deriving DecidableEq

/-- One step of the `watchPollData` loop (source lines 72-109).  While blocked on
the initial `take`, a matching data action moves the loop through the dispatch
phase (which contributes no effects, see `dispatchPhase`) into the race; other
signals are not consumed.  While racing, the delay elapsing completes
`pollNotifications` successfully (putting `FETCH_SOME`), whereas `LOGOUT`
winning cancels `pollNotifications` (its `catch` puts the cancellation action);
in both cases the `while (true)` loop continues to the next `take` — the loop
never exits.  Signals not matching the current blocking point produce no
effects. -/
def watchStep (qs : Queues) : SupState → Signal → SupState × List Action
  | SupState.awaitingData, Signal.receiveAllSig => (SupState.racing, (dispatchPhase qs).2)
  | SupState.awaitingData, Signal.appendSomeSig => (SupState.racing, (dispatchPhase qs).2)
  | SupState.awaitingData, _ => (SupState.awaitingData, [])
  | SupState.racing, Signal.pollElapsedSig => (SupState.awaitingData, (pollNotifications false).2)
  | SupState.racing, Signal.logoutSig => (SupState.awaitingData, (pollNotifications true).2)
  | SupState.racing, _ => (SupState.racing, [])

/-- Run `watchPollData` over a sequence of signals, collecting every action it
puts, in order. -/
def watchRun (qs : Queues) : SupState → List Signal → List Action
  | _, [] => []
  | s, sig :: rest =>
    let step := watchStep qs s sig
    step.2 ++ watchRun qs step.1 rest

/-- Draining an empty queue `n` times in a row: concatenated remote calls and
actions of `n` successive `processUpdateQueue` invocations on the empty
snapshot. -/
def drainRepeat (u : Updates) (api : List String → ApiResponse) : Nat → List (List String) × List Action
  | 0 => ([], [])
  | n + 1 =>
    let once := processUpdateQueue [] u api
    let rest := drainRepeat u api n
    (once.1 ++ rest.1, once.2 ++ rest.2)

/-- A sample notification used by concrete witnesses. -/
def sampleNotif : Notification := ⟨"id1", "vote", 3, 7, false, false⟩

/-- A second sample notification, created later and updated earlier than
`sampleNotif`. -/
def sampleNotif2 : Notification := ⟨"id2", "mention", 9, 4, true, false⟩

-- Theorems -------------------------------------------------------------------

/-- Helper: in a list sorted by `updated`, the last element (via `getLast?`) has
the greatest `updated` value. -/
theorem sorted_getLast?_max :
    ∀ (l : List Notification) (m : Notification), List.Sorted updLE l →
      l.getLast? = some m → ∀ y ∈ l, y.updated ≤ m.updated
  | [], _, _, hm => by simp at hm
  | [a], m, _, hm => by
    simp [List.getLast?] at hm
    subst hm
    intro y hy
    simp at hy
    subst hy
    exact Nat.le_refl _
  | a :: b :: t, m, hs, hm => by
    rw [List.getLast?_cons_cons] at hm
    intro y hy
    rcases List.mem_cons.mp hy with rfl | hy2
    · have hmem : m ∈ b :: t := List.mem_of_mem_getLast? (by simp [hm])
      exact List.rel_of_sorted_cons hs m hmem
    · exact sorted_getLast?_max (b :: t) m hs.of_cons hm y hy2

/-- Helper: the sorted copy of a non-empty list is non-empty. -/
theorem insertionSort_ne_nil (l : List Notification) (h : l ≠ []) :
    List.insertionSort updLE l ≠ [] := by
  intro hc
  apply h
  have hlen : l.length = 0 := by
    rw [← List.length_insertionSort updLE l, hc]
    rfl
  exact List.length_eq_zero.mp hlen

/-- Claim C8: a poll cycle whose clock wait (of `POLL_WAIT_MS = 5000` ms)
completes without interruption puts exactly one `notification/FETCH_SOME` action
with direction `after` and then terminates. -/
theorem pollNotifications_success_emits_fetch_after :
    pollNotifications false = (5000, [Action.fetchSomeRequested "after"]) := rfl

/-- Claim C1 (code bug): on receipt of a data signal, `watchPollData` proceeds
from its `take` directly to the race with an empty effect list, even when the
read-pending queue is non-empty — the three `processUpdateQueue` generators
created by the `.map` call are never yielded, so no drain runs — whereas a
`processUpdateQueue` invocation actually driven on that queue would submit the
snapshot and emit its two events. -/
theorem watchPollData_never_runs_drains :
    watchStep (Queues.mk ["n1"] [] []) SupState.awaitingData Signal.receiveAllSig =
      (SupState.racing, []) ∧
    processUpdateQueue ["n1"] readSentUpdates (fun _ => ApiResponse.mk none "ok") =
      ([["n1"]], [Action.sentUpdates readSentUpdates,
        Action.appendSome (ApiResponse.mk none "ok")]) :=
  ⟨rfl, rfl⟩

/-- Claim C2 counterexample: run `watchPollData` on the concrete signal sequence
receive-all, logout, append-some, poll-elapsed.  After `user/LOGOUT` wins the
race (emitting the cancellation action), the same supervisor instance consumes
the later `notification/APPEND_SOME` signal, starts a new poll cycle and emits a
further `FETCH_SOME` request — so the loop does not stop permanently on logout,
contradicting the claim. -/
theorem watchPollData_survives_logout :
    watchRun (Queues.mk [] [] []) SupState.awaitingData
      [Signal.receiveAllSig, Signal.logoutSig, Signal.appendSomeSig, Signal.pollElapsedSig] =
      [Action.appendSomeError "poll cancelled", Action.fetchSomeRequested "after"] := rfl

/-- Claim C2 (amended): when `user/LOGOUT` wins the race, the in-flight poll
cycle is cancelled — its effect list is exactly the cancellation action, so no
`FETCH_SOME` is emitted for that cycle — and the supervisor returns to awaiting
data rather than terminating: a later data signal re-enters the racing phase. -/
theorem logout_cancels_current_cycle_only (qs : Queues) :
    watchStep qs SupState.racing Signal.logoutSig =
      (SupState.awaitingData, [Action.appendSomeError "poll cancelled"]) ∧
    watchStep qs SupState.awaitingData Signal.appendSomeSig = (SupState.racing, []) :=
  ⟨rfl, rfl⟩

/-- Claim C3 counterexample: a cancelled poll and a failed incremental fetch
whose error message is `poll cancelled` put exactly the same action
(`notification/APPEND_SOME_ERROR` with the same message), so the cancellation
event does not differ from every event emitted by a failed incremental fetch. -/
theorem pollCancelled_event_collides_with_fetch_error :
    (pollNotifications true).2 = [Action.appendSomeError "poll cancelled"] ∧
    (fetchSome "basil" [] none "after"
        (fun _ => ApiResponse.mk (some "poll cancelled") "")).2 =
      [Action.appendSomeError "poll cancelled"] :=
  ⟨rfl, rfl⟩

/-- Claim C3 (amended): cancellation is reported with the incremental-fetch
error action type carrying message `poll cancelled`; it differs from every
full-fetch failure event (`RECEIVE_ALL_ERROR`), and from an incremental-fetch
failure event whenever that fetch's error message is not `poll cancelled`. -/
theorem pollCancelled_distinguished_only_by_message
    (eFull eInc username : String) (hne : eInc ≠ "poll cancelled") :
    (pollNotifications true).2 = [Action.appendSomeError "poll cancelled"] ∧
    fetchAll username (fun _ => ApiResponse.mk (some eFull) "") =
      [Action.receiveAllError eFull] ∧
    Action.receiveAllError eFull ≠ Action.appendSomeError "poll cancelled" ∧
    Action.appendSomeError eInc ≠ Action.appendSomeError "poll cancelled" :=
  ⟨rfl, rfl, fun h => Action.noConfusion h,
    fun h => hne (Action.appendSomeError.inj h)⟩

/-- Witness for the amended C3 theorem at concrete error messages. -/
theorem pollCancelled_distinguished_witness :
    ("network down" : String) ≠ "poll cancelled" ∧
    ((pollNotifications true).2 = [Action.appendSomeError "poll cancelled"] ∧
     fetchAll "basil" (fun _ => ApiResponse.mk (some "http 500") "") =
       [Action.receiveAllError "http 500"] ∧
     Action.receiveAllError "http 500" ≠ Action.appendSomeError "poll cancelled" ∧
     Action.appendSomeError "network down" ≠ Action.appendSomeError "poll cancelled") :=
  ⟨by decide, pollCancelled_distinguished_only_by_message "http 500" "network down" "basil" (by decide)⟩

/-- Claim C4: the timestamp selector returns `none` on the empty set for any
direction; on a non-empty set, direction `before` yields the `created`
timestamp of the set's last element, and direction `after` yields the maximum
`updated` timestamp across the set.  Being a Lean function of its two
arguments, it is pure and deterministic by construction. -/
theorem getTimestamp_spec (l : List Notification) (d : String) (h : l ≠ []) :
    getTimestamp d [] = none ∧
    getTimestamp "before" l = some ((l.getLast h).created) ∧
    ∃ m, getTimestamp "after" l = some m ∧
      (∀ n ∈ l, n.updated ≤ m) ∧ ∃ n ∈ l, n.updated = m := by
  have hnotlt : ¬ l.length < 1 := Nat.not_lt.mpr (List.length_pos.mpr h)
  refine ⟨by simp [getTimestamp], ?_, ?_⟩
  · unfold getTimestamp
    rw [if_neg hnotlt, if_pos rfl, List.getLast?_eq_getLast_of_ne_nil h]
    rfl
  · have hSne : List.insertionSort updLE l ≠ [] := insertionSort_ne_nil l h
    have hlast : (List.insertionSort updLE l).getLast? =
        some ((List.insertionSort updLE l).getLast hSne) :=
      List.getLast?_eq_getLast_of_ne_nil hSne
    refine ⟨((List.insertionSort updLE l).getLast hSne).updated, ?_, ?_, ?_⟩
    · unfold getTimestamp
      rw [if_neg hnotlt, if_neg (by decide : ¬ ("after" : String) = "before"), hlast]
      rfl
    · intro n hn
      exact sorted_getLast?_max (List.insertionSort updLE l) _
        (List.sorted_insertionSort updLE l) hlast n
        ((List.mem_insertionSort updLE).mpr hn)
    · exact ⟨(List.insertionSort updLE l).getLast hSne,
        (List.mem_insertionSort updLE).mp (List.getLast_mem hSne), rfl⟩

/-- Witness for `getTimestamp_spec` on a concrete two-element set: `before`
yields the last element's `created` (9), `after` yields the maximum `updated`
(7). -/
theorem getTimestamp_spec_witness :
    ([sampleNotif, sampleNotif2] : List Notification) ≠ [] ∧
    (getTimestamp "x" [] = none ∧
     getTimestamp "before" [sampleNotif, sampleNotif2] =
       some (([sampleNotif, sampleNotif2].getLast
         (List.cons_ne_nil sampleNotif [sampleNotif2])).created) ∧
     ∃ m, getTimestamp "after" [sampleNotif, sampleNotif2] = some m ∧
       (∀ n ∈ [sampleNotif, sampleNotif2], n.updated ≤ m) ∧
       ∃ n ∈ [sampleNotif, sampleNotif2], n.updated = m) :=
  ⟨List.cons_ne_nil sampleNotif [sampleNotif2],
    getTimestamp_spec [sampleNotif, sampleNotif2] "x"
      (List.cons_ne_nil sampleNotif [sampleNotif2])⟩

/-- Claim C5: draining a non-empty queue whose remote submission succeeds makes
exactly one remote call (with the queue snapshot) and puts exactly the
`SENT_UPDATES` action carrying the applied transition, strictly before exactly
the `APPEND_SOME` action carrying the response payload, and nothing else. -/
theorem processUpdateQueue_success_emits_sent_then_append
    (pending : List String) (u : Updates) (api : List String → ApiResponse)
    (hne : pending ≠ []) (hok : (api pending).error = none) :
    processUpdateQueue pending u api =
      ([pending], [Action.sentUpdates u, Action.appendSome (api pending)]) := by
  have hlen : pending.length > 0 := List.length_pos.mpr hne
  simp [processUpdateQueue, hlen, hok]

/-- Witness for `processUpdateQueue_success_emits_sent_then_append` on a
concrete one-element queue and a successful remote call. -/
theorem processUpdateQueue_success_witness :
    (["n1"] : List String) ≠ [] ∧
    ((fun _ => ApiResponse.mk none "ok") (["n1"] : List String)).error = none ∧
    processUpdateQueue ["n1"] readSentUpdates (fun _ => ApiResponse.mk none "ok") =
      ([["n1"]], [Action.sentUpdates readSentUpdates,
        Action.appendSome (ApiResponse.mk none "ok")]) :=
  ⟨List.cons_ne_nil "n1" [], rfl,
    processUpdateQueue_success_emits_sent_then_append ["n1"] readSentUpdates
      (fun _ => ApiResponse.mk none "ok") (List.cons_ne_nil "n1" []) rfl⟩

/-- Claim C6: draining a non-empty queue whose remote submission returns an
error makes exactly one remote call and puts exactly one `SENT_UPDATES_ERROR`
action carrying the error message — no `SENT_UPDATES`, no `APPEND_SOME` — and
the drain emits no effect that clears the queue (it only reads the snapshot). -/
theorem processUpdateQueue_error_emits_single_error
    (pending : List String) (u : Updates) (api : List String → ApiResponse)
    (e : String) (hne : pending ≠ []) (herr : (api pending).error = some e) :
    processUpdateQueue pending u api = ([pending], [Action.sentUpdatesError e]) := by
  have hlen : pending.length > 0 := List.length_pos.mpr hne
  simp [processUpdateQueue, hlen, herr]

/-- Witness for `processUpdateQueue_error_emits_single_error` on a concrete
queue and a failing remote call. -/
theorem processUpdateQueue_error_witness :
    (["n1", "n2"] : List String) ≠ [] ∧
    ((fun _ => ApiResponse.mk (some "boom") "") (["n1", "n2"] : List String)).error =
      some "boom" ∧
    processUpdateQueue ["n1", "n2"] shownSentUpdates
      (fun _ => ApiResponse.mk (some "boom") "") =
      ([["n1", "n2"]], [Action.sentUpdatesError "boom"]) :=
  ⟨List.cons_ne_nil "n1" ["n2"], rfl,
    processUpdateQueue_error_emits_single_error ["n1", "n2"] shownSentUpdates
      (fun _ => ApiResponse.mk (some "boom") "") "boom"
      (List.cons_ne_nil "n1" ["n2"]) rfl⟩

/-- Claim C9: draining an empty queue makes no remote call and puts no action,
and repeating the drain on the still-empty queue any number of times still
makes no calls and puts no actions. -/
theorem processUpdateQueue_empty_noop_idempotent
    (u : Updates) (api : List String → ApiResponse) (n : Nat) :
    processUpdateQueue [] u api = ([], []) ∧ drainRepeat u api n = ([], []) := by
  refine ⟨rfl, ?_⟩
  induction n with
  | zero => rfl
  | succ k ih => simp [drainRepeat, ih, processUpdateQueue]

/-- Claim C7: the incremental fetch derives its cursor from the timestamp
selector applied to the known set, filtered to the requested types; when the
selector yields a cursor, the remote request carries it under the direction
key; with an empty store the request carries the username and no cursor; a
successful response puts `APPEND_SOME` with the payload and an error response
puts `APPEND_SOME_ERROR` with the message. -/
theorem fetchSome_request_and_events
    (username : String) (allNotifs : List Notification) (types : Option (List String))
    (direction : String) (api : FetchSomeRequest → ApiResponse) (t : Nat)
    (hcur : getTimestamp direction (filterByTypes types allNotifs) = some t) :
    (fetchSome username allNotifs types direction api).1 =
      FetchSomeRequest.mk username types [(direction, t)] ∧
    (fetchSome username [] types direction api).1 =
      FetchSomeRequest.mk username types [] ∧
    ((api (fetchSome username allNotifs types direction api).1).error = none →
      (fetchSome username allNotifs types direction api).2 =
        [Action.appendSome (api (fetchSome username allNotifs types direction api).1)]) ∧
    (∀ e, (api (fetchSome username allNotifs types direction api).1).error = some e →
      (fetchSome username allNotifs types direction api).2 = [Action.appendSomeError e]) := by
  have hreq : (fetchSome username allNotifs types direction api).1 =
      FetchSomeRequest.mk username types [(direction, t)] := by
    simp [fetchSome, hcur]
  refine ⟨hreq, ?_, ?_, ?_⟩
  · cases types <;> simp [fetchSome, filterByTypes, getTimestamp]
  · intro hok
    rw [hreq] at hok
    simp [fetchSome, hcur, hok]
  · intro e herr
    rw [hreq] at herr
    simp [fetchSome, hcur, herr]

/-- Witness for `fetchSome_request_and_events` on a one-element store with no
type filter: the cursor 7 (maximum `updated`) is sent under the `after` key. -/
theorem fetchSome_request_witness :
    getTimestamp "after" (filterByTypes none [sampleNotif]) = some 7 ∧
    (fetchSome "basil" [sampleNotif] none "after"
        (fun _ => ApiResponse.mk none "ok")).1 =
      FetchSomeRequest.mk "basil" none [("after", 7)] :=
  ⟨rfl, (fetchSome_request_and_events "basil" [sampleNotif] none "after"
    (fun _ => ApiResponse.mk none "ok") 7 rfl).1⟩

/-- Claim C10: `updateOne`/`updateSome` with a transition whose `read` field is
`true` call `markAsRead` and put `APPEND_SOME` with the response
unconditionally — also when the response carries an error — with no error
action; with any transition whose `read` field is not `true` (e.g. the shown
transition) they make no call and put nothing. -/
theorem updateOne_updateSome_read_only_unconditional_append
    (id : String) (ids : List String) (u v : Updates)
    (api : List String → ApiResponse)
    (hu : u.read = some true) (hv : v.read ≠ some true) :
    updateOne id u api = ([[id]], [Action.appendSome (api [id])]) ∧
    updateSome ids u api = ([ids], [Action.appendSome (api ids)]) ∧
    updateOne id u (fun _ => ApiResponse.mk (some "boom") "") =
      ([[id]], [Action.appendSome (ApiResponse.mk (some "boom") "")]) ∧
    updateOne id v api = ([], []) ∧
    updateSome ids v api = ([], []) := by
  refine ⟨?_, ?_, ?_, ?_, ?_⟩ <;> simp [updateOne, updateSome, hu, hv]

/-- Witness for `updateOne_updateSome_read_only_unconditional_append` with the
read transition against an error response, and the shown transition. -/
theorem updateOne_updateSome_witness :
    readSentUpdates.read = some true ∧
    shownSentUpdates.read ≠ some true ∧
    (updateOne "n1" readSentUpdates (fun _ => ApiResponse.mk (some "oops") "x") =
       ([["n1"]], [Action.appendSome ((fun _ => ApiResponse.mk (some "oops") "x")
         (["n1"] : List String))]) ∧
     updateSome ["a", "b"] shownSentUpdates
       (fun _ => ApiResponse.mk (some "oops") "x") = ([], [])) :=
  ⟨rfl, by decide,
    (updateOne_updateSome_read_only_unconditional_append "n1" ["a", "b"]
      readSentUpdates shownSentUpdates (fun _ => ApiResponse.mk (some "oops") "x")
      rfl (by decide)).1,
    (updateOne_updateSome_read_only_unconditional_append "n1" ["a", "b"]
      readSentUpdates shownSentUpdates (fun _ => ApiResponse.mk (some "oops") "x")
      rfl (by decide)).2.2.2.2⟩

end NotifSaga
